import Mathlib

/-!
Shallow embedding of `src/main.cpp` of the `coretaskoptimizer` repository.

The program is a one-shot process tuner.  Its interaction with the host
(procfs reads, syscalls, the clock) is abstracted into an explicit
environment record `SysEnv`; every pure computation of the C++ source is
translated function-by-function.  Machine `int` overflow never matters on
the paths embedded here (all counts stay tiny), except where noted
(`stoi` overflow, modelled explicitly).
-/

namespace CoreTaskOptimizer

/-! ## config (src/main.cpp lines 26-47) -/

def MAX_RETRIES : Nat := 3

def RETRY_DELAY_MS : Nat := 50

/-! ## Log events

`Logger::log(message, isError)` appends a line to a log file.  The
claims only ever count messages and look at their severity, so each call
site of `Logger::log` in the embedded core becomes one constructor; the
payload records the data interpolated into the message string. -/

inductive LogEvent where
  | detectDefaultWarn : LogEvent
  | invalidPatternMsg : List Char → LogEvent
  | getProcessIDsErr : LogEvent
  | getThreadIDsErr : LogEvent
  | noProcessesMsg : List Char → LogEvent
  | failedOpMsg : List Char → Int → LogEvent
deriving DecidableEq, Repr

/-- The `isError` flag passed to `Logger::log` at each call site. -/
def LogEvent.isErr : LogEvent → Bool
  | .noProcessesMsg _ => false
  | _ => true

/-! ## Sanitizer (lines 84-104) -/

/-- Character codes of `";&|\x60$(){}[]<>"`, the set passed to
`find_first_of` in `isValidPattern`. -/
def FORBIDDEN_CODES : List Nat :=
  [59, 38, 124, 96, 36, 40, 41, 123, 125, 91, 93, 60, 62]

def FORBIDDEN : List Char := FORBIDDEN_CODES.map Char.ofNat

/-- `Sanitizer::sanitizePID`: keep only digit characters. -/
def sanitizePID (input : List Char) : List Char := input.filter Char.isDigit

/-- `Sanitizer::isValidPattern` (lines 99-103): length < 100 and
`find_first_of(";&|\x60$(){}[]<>") == npos`, i.e. no forbidden character
occurs. -/
def isValidPattern (pattern : List Char) : Bool :=
  decide (pattern.length < 100) && pattern.all (fun c => !(FORBIDDEN.contains c))

/-! ## CPU topology (lines 106-174)

`detectCores` probes `/sys/devices/system/cpu/cpu<i>/cpufreq/cpuinfo_max_freq`
for `i = 0, 1, ...`.  One probe can: fail to open (`!freqFile.is_open()`,
the loop `break`s); open and deliver a parsed integer (`freqFile >> maxFreq`;
a parse failure value-initialises `maxFreq` to `0` in C++11 without
throwing, so it is the `value 0` case); or throw a C++ exception
(filesystem/allocation failure), caught by the enclosing `catch (...)`. -/

inductive CoreAttr where
  | missing : CoreAttr
  | raises : CoreAttr
  | value : Int → CoreAttr
deriving DecidableEq, Repr

structure CoreInfo where
  perfCores : List Nat
  effCores : List Nat
  totalCores : Nat
deriving DecidableEq, Repr

/-- The fallback topology assigned in the `catch` block (lines 136-139). -/
def defaultCoreInfo : CoreInfo :=
  { perfCores := [4, 5, 6, 7], effCores := [0, 1, 2, 3], totalCores := 8 }

/-- The `for (int i = 0; i < 16; ++i)` probe loop of `detectCores`.
`fuel` is the number of remaining iterations (initially 16), `i` the
current core index, `acc` the `info` being built.  `none` means a C++
exception escaped the loop into the `catch` block. -/
def detectFrom (env : Nat → CoreAttr) : Nat → Nat → CoreInfo → Option CoreInfo
  | 0, _, acc => some acc
  | fuel + 1, i, acc =>
    match env i with
    | .missing => some acc
    | .raises => none
    | .value f =>
      let acc' :=
        if f > 2000000 then
          { acc with perfCores := acc.perfCores ++ [i], totalCores := acc.totalCores + 1 }
        else
          { acc with effCores := acc.effCores ++ [i], totalCores := acc.totalCores + 1 }
      detectFrom env fuel (i + 1) acc'

/-- `CPUTopology::detectCores` (lines 115-142), together with the Boolean
`true` exactly when the fallback warning `"Failed to detect CPU topology,
using defaults"` is logged. -/
def detectCoresLog (env : Nat → CoreAttr) : CoreInfo × Bool :=
  match detectFrom env 16 0 { perfCores := [], effCores := [], totalCores := 0 } with
  | some info => (info, false)
  | none => (defaultCoreInfo, true)

def detectCores (env : Nat → CoreAttr) : CoreInfo := (detectCoresLog env).1

/-- `CPUTopology::getPerfMask`: the set of bits set in the returned
`cpu_set_t` (one `CPU_SET` per element of `perfCores`). -/
def getPerfMask (env : Nat → CoreAttr) : List Nat := (detectCores env).perfCores

/-- `CPUTopology::getEffMask`. -/
def getEffMask (env : Nat → CoreAttr) : List Nat := (detectCores env).effCores

/-- `CPUTopology::getAllMask` (lines 165-173): bits `0 ..< totalCores`. -/
def getAllMask (env : Nat → CoreAttr) : List Nat := List.range (detectCores env).totalCores

/-! ## The host environment

Everything the program observes from the kernel/procfs is gathered in
one record.  Syscall outcomes take the attempt number as a parameter so
that distinct retries of the same operation may observe different
results (the host is free to change between attempts). -/

structure DirEntry where
  name : List Char
  isDir : Bool
  /-- the `std::error_code` checked by `if (ec || ...) continue;` is clear
  when this entry is visited -/
  ok : Bool
deriving DecidableEq, Repr

structure SysEnv where
  /-- `fs::exists("/proc/" + pid)` at the moment `isValidPID` runs -/
  procExists : Int → Bool
  /-- the entries yielded by `fs::directory_iterator("/proc")` -/
  procEntries : List DirEntry
  /-- `std::getline` on `/proc/<pid>/comm`: `none` when no line is read -/
  comm : Int → Option (List Char)
  /-- whether `std::regex(pattern)` constructs without throwing -/
  regexOk : List Char → Bool
  /-- `std::regex_search(comm, regex)` for a given pattern and comm line -/
  regexSearch : List Char → List Char → Bool
  /-- the entries yielded by `fs::directory_iterator("/proc/<pid>/task")` -/
  taskEntries : Int → List DirEntry
  /-- the `cpuinfo_max_freq` probe of one core -/
  coreAttr : Nat → CoreAttr
  /-- `sched_setaffinity(tid, mask) == 0`, per attempt -/
  affinityRet : Int → List Nat → Nat → Bool
  /-- `setpriority(PRIO_PROCESS, tid, value)`: (return value, errno after
  the call, given `errno = 0` was set just before), per attempt -/
  priorityCall : Int → Int → Nat → Int × Int
  /-- `sched_setscheduler(tid, SCHED_FIFO, prio) == 0`, per attempt -/
  rtRet : Int → Int → Nat → Bool
  /-- `syscall(SYS_ioprio_set, IOPRIO_WHO_PROCESS, tid, ioprio) == 0`,
  per attempt -/
  ioprioRet : Int → Int → Nat → Bool

/-- `Sanitizer::isValidPID` (lines 94-97). -/
def isValidPID (env : SysEnv) (pid : Int) : Bool :=
  decide (0 < pid) && decide (pid < 99999) && env.procExists pid

/-! ## SyscallOptimizer: the four direct operations (lines 177-235) -/

/-- The `error` string of the C++ `OpResult`, abstracted to which message
was produced. -/
inductive OpErr where
  | noErr : OpErr
  | invalidTID : OpErr
  | sysFail : OpErr
deriving DecidableEq, Repr

structure OpResult where
  success : Bool
  error : OpErr
deriving DecidableEq, Repr

def setAffinityDirect (env : SysEnv) (tid : Int) (mask : List Nat) (attempt : Nat) : OpResult :=
  if !isValidPID env tid then ⟨false, .invalidTID⟩
  else if env.affinityRet tid mask attempt then ⟨true, .noErr⟩
  else ⟨false, .sysFail⟩

/-- `setNiceDirect` (lines 195-205): `errno = 0;` then success iff
`setpriority(...) == 0 || errno == 0`. -/
def setNiceDirect (env : SysEnv) (tid value : Int) (attempt : Nat) : OpResult :=
  if !isValidPID env tid then ⟨false, .invalidTID⟩
  else
    let r := env.priorityCall tid value attempt
    if r.1 = 0 ∨ r.2 = 0 then ⟨true, .noErr⟩ else ⟨false, .sysFail⟩

def setRTDirect (env : SysEnv) (tid priority : Int) (attempt : Nat) : OpResult :=
  if !isValidPID env tid then ⟨false, .invalidTID⟩
  else if env.rtRet tid priority attempt then ⟨true, .noErr⟩
  else ⟨false, .sysFail⟩

/-- `setIOPrioDirect` (lines 221-235): `ioprio = ioClass << 13`. -/
def setIOPrioDirect (env : SysEnv) (tid ioClass : Int) (attempt : Nat) : OpResult :=
  if !isValidPID env tid then ⟨false, .invalidTID⟩
  else if env.ioprioRet tid (ioClass * 8192) attempt then ⟨true, .noErr⟩
  else ⟨false, .sysFail⟩

/-! ## SyscallOptimizer: the retry wrappers (lines 237-293)

All four wrappers share the loop
`for (retry = 0; retry < MAX_RETRIES; ++retry) { try; if ok return true;
if (retry < MAX_RETRIES - 1) sleep(RETRY_DELAY_MS); } return false;`.
The trace records each direct-call attempt and each sleep, in order. -/

inductive Ev where
  | tryOp : Nat → Ev
  | sleep : Nat → Ev
deriving DecidableEq, Repr

def retryFrom (direct : Nat → Bool) : Nat → Nat → Bool × List Ev
  | 0, _ => (false, [])
  | fuel + 1, retry =>
    if direct retry then (true, [Ev.tryOp retry])
    else
      let sl := if retry < MAX_RETRIES - 1 then [Ev.sleep RETRY_DELAY_MS] else []
      let rest := retryFrom direct fuel (retry + 1)
      (rest.1, Ev.tryOp retry :: (sl ++ rest.2))

def retryAll (direct : Nat → Bool) : Bool × List Ev := retryFrom direct MAX_RETRIES 0

/-- `SyscallOptimizer::setAffinity` with its attempt/sleep trace. -/
def setAffinity (env : SysEnv) (tid : Int) (mask : List Nat) : Bool × List Ev :=
  retryAll (fun a => (setAffinityDirect env tid mask a).success)

/-- `SyscallOptimizer::setNice` with its attempt/sleep trace. -/
def setNice (env : SysEnv) (tid value : Int) : Bool × List Ev :=
  retryAll (fun a => (setNiceDirect env tid value a).success)

/-- `SyscallOptimizer::setRT` with its attempt/sleep trace. -/
def setRT (env : SysEnv) (tid priority : Int) : Bool × List Ev :=
  retryAll (fun a => (setRTDirect env tid priority a).success)

/-- `SyscallOptimizer::setIOPrio` with its attempt/sleep trace. -/
def setIOPrio (env : SysEnv) (tid ioClass : Int) : Bool × List Ev :=
  retryAll (fun a => (setIOPrioDirect env tid ioClass a).success)

/-! ## ProcessUtils (lines 296-356)

`std::stoi` on an all-digit filename throws `std::invalid_argument` when
the string is empty and `std::out_of_range` when the value exceeds
`INT_MAX`; either exception leaves the enumeration loop for the
enclosing `catch`, which logs and returns the IDs accumulated so far. -/

def natOfDigits (s : List Char) : Nat :=
  s.foldl (fun a c => a * 10 + (c.toNat - 48)) 0

/-- `std::stoi` succeeds on an all-digit string iff it is non-empty and
its value fits in a 32-bit signed `int`. -/
def stoiOk (s : List Char) : Bool :=
  decide (s ≠ []) && decide (natOfDigits s < 2 ^ 31)

/-- Body of the `directory_iterator("/proc")` loop of `getProcessIDs`
(lines 309-323), with the accumulated `pids`.  Returns the final list
and the log events (an exception inside the loop is caught at lines
324-326 and logged). -/
def procLoop (env : SysEnv) (pattern : List Char) :
    List DirEntry → List Int → List Int × List LogEvent
  | [], acc => (acc, [])
  | e :: rest, acc =>
    if !e.ok || !e.isDir then procLoop env pattern rest acc
    else if !e.name.all Char.isDigit then procLoop env pattern rest acc
    else if !stoiOk e.name then (acc, [LogEvent.getProcessIDsErr])
    else
      let pid : Int := (natOfDigits e.name : Nat)
      if !isValidPID env pid then procLoop env pattern rest acc
      else
        match env.comm pid with
        | none => procLoop env pattern rest acc
        | some c =>
          if env.regexSearch pattern c then procLoop env pattern rest (acc ++ [pid])
          else procLoop env pattern rest acc

/-- `ProcessUtils::getProcessIDs` (lines 298-329).  The `std::regex`
constructor at line 305 sits outside the `try` block, so a pattern the
regex engine rejects throws out of the function: that is the `.error`
case. -/
def getProcessIDs (env : SysEnv) (pattern : List Char) :
    Except Unit (List Int × List LogEvent) :=
  if !isValidPattern pattern then .ok ([], [LogEvent.invalidPatternMsg pattern])
  else if !env.regexOk pattern then .error ()
  else .ok (procLoop env pattern env.procEntries [])

/-- Body of the `directory_iterator(taskDir)` loop of `getThreadIDs`
(lines 339-349). -/
def taskLoop (env : SysEnv) :
    List DirEntry → List Int → List Int × List LogEvent
  | [], acc => (acc, [])
  | e :: rest, acc =>
    if !e.ok || !e.isDir then taskLoop env rest acc
    else if !e.name.all Char.isDigit then taskLoop env rest acc
    else if !stoiOk e.name then (acc, [LogEvent.getThreadIDsErr])
    else
      let tid : Int := (natOfDigits e.name : Nat)
      if isValidPID env tid then taskLoop env rest (acc ++ [tid])
      else taskLoop env rest acc

/-- `ProcessUtils::getThreadIDs` (lines 331-355). -/
def getThreadIDs (env : SysEnv) (pid : Int) : List Int × List LogEvent :=
  if !isValidPID env pid then ([], [])
  else taskLoop env (env.taskEntries pid) []

/-! ## StatsTracker (lines 359-374)

The three counters are `std::atomic<int>` mutated only by `++`; the
program performs far fewer than `2^31` increments per run, so they are
modelled as unbounded naturals. -/

structure Counters where
  successCount : Nat
  failureCount : Nat
  totalOps : Nat
deriving DecidableEq, Repr

def initCounters : Counters := ⟨0, 0, 0⟩

def recordSuccess (c : Counters) : Counters :=
  { c with successCount := c.successCount + 1, totalOps := c.totalOps + 1 }

def recordFailure (c : Counters) : Counters :=
  { c with failureCount := c.failureCount + 1, totalOps := c.totalOps + 1 }

/-- One call to `recordSuccess` or `recordFailure`. -/
inductive StatOp where
  | success : StatOp
  | failure : StatOp
deriving DecidableEq, Repr

def applyStat (c : Counters) : StatOp → Counters
  | .success => recordSuccess c
  | .failure => recordFailure c

def runStats (c : Counters) (ops : List StatOp) : Counters := ops.foldl applyStat c

/-! ## TaskOptimizer (lines 377-408) -/

/-- Inner `for (pid_t tid : tids)` loop of `optimizePattern`
(lines 393-401): one counter increment per thread, an error log per
failure. -/
def applyToTids (optimizer : Int → Bool) (opName : List Char) :
    List Int → Counters → Counters × List LogEvent
  | [], stats => (stats, [])
  | tid :: rest, stats =>
    if optimizer tid then applyToTids optimizer opName rest (recordSuccess stats)
    else
      let r := applyToTids optimizer opName rest (recordFailure stats)
      (r.1, LogEvent.failedOpMsg opName tid :: r.2)

/-- Outer `for (pid_t pid : pids)` loop of `optimizePattern`
(lines 391-402). -/
def applyToPids (env : SysEnv) (optimizer : Int → Bool) (opName : List Char) :
    List Int → Counters → Counters × List LogEvent
  | [], stats => (stats, [])
  | pid :: rest, stats =>
    let t := getThreadIDs env pid
    let r1 := applyToTids optimizer opName t.1 stats
    let r2 := applyToPids env optimizer opName rest r1.1
    (r2.1, t.2 ++ r1.2 ++ r2.2)

/-- `TaskOptimizer::optimizePattern` (lines 382-403), returning the new
counters and the log events in order.  `.error` propagates the regex
construction exception, which the program never catches before `main`. -/
def optimizePattern (env : SysEnv) (stats : Counters) (pattern : List Char)
    (optimizer : Int → Bool) (opName : List Char) :
    Except Unit (Counters × List LogEvent) :=
  match getProcessIDs env pattern with
  | .error e => .error e
  | .ok (pids, logs) =>
    if pids.isEmpty then .ok (stats, logs ++ [LogEvent.noProcessesMsg pattern])
    else
      let r := applyToPids env optimizer opName pids stats
      .ok (r.1, logs ++ r.2)

/-! ## The composed tuning operations of `optimizeSystem` (lines 410-445)

Each tier's lambda combines syscall wrappers with C++ `&&`, which
evaluates left to right and stops at the first `false`.  `sAnd` mirrors
that short-circuit, recording which constituent calls were performed. -/

inductive Call where
  | nice : Call
  | affinity : Call
  | rt : Call
  | ioprio : Call
deriving DecidableEq, Repr

def sAnd (x : Bool × List Call) (y : Unit → Bool × List Call) : Bool × List Call :=
  if x.1 then ((y ()).1, x.2 ++ (y ()).2) else (false, x.2)

/-- The `HIGH_PRIO_TASKS` lambda (lines 418-421):
`setNice(tid, -10) && setAffinity(tid, getPerfMask())`. -/
def highPrioOp (env : SysEnv) (tid : Int) : Bool × List Call :=
  sAnd ((setNice env tid (-10)).1, [Call.nice])
    (fun _ => ((setAffinity env tid (getPerfMask env.coreAttr)).1, [Call.affinity]))

/-- The `RT_TASKS` lambda (lines 427-430):
`setRT(tid, 50) && setAffinity(tid, getPerfMask())`. -/
def rtOp (env : SysEnv) (tid : Int) : Bool × List Call :=
  sAnd ((setRT env tid 50).1, [Call.rt])
    (fun _ => ((setAffinity env tid (getPerfMask env.coreAttr)).1, [Call.affinity]))

/-- The `LOW_PRIO_TASKS` lambda (lines 436-440):
`setNice(tid, 5) && setAffinity(tid, getEffMask()) && setIOPrio(tid, 3)`. -/
def lowPrioOp (env : SysEnv) (tid : Int) : Bool × List Call :=
  sAnd (sAnd ((setNice env tid 5).1, [Call.nice])
      (fun _ => ((setAffinity env tid (getEffMask env.coreAttr)).1, [Call.affinity])))
    (fun _ => ((setIOPrio env tid 3).1, [Call.ioprio]))

/-! ## Concrete environments used by witnesses -/

/-- A host on which every process directory exists and every syscall
deterministically fails (`setpriority` returns `-1` with `errno = 1`). -/
def envBase : SysEnv where
  procExists := fun _ => true
  procEntries := []
  comm := fun _ => none
  regexOk := fun _ => true
  regexSearch := fun _ _ => false
  taskEntries := fun _ => []
  coreAttr := fun _ => CoreAttr.missing
  affinityRet := fun _ _ _ => false
  priorityCall := fun _ _ _ => (-1, 1)
  rtRet := fun _ _ _ => false
  ioprioRet := fun _ _ _ => false

/-- Like `envBase` but `setpriority` returns `-1` while leaving `errno`
clear: the borderline condition of claim C7. -/
def envNiceBorderline : SysEnv :=
  { envBase with priorityCall := fun _ _ _ => (-1, 0) }

/-- A host on which no core's frequency attribute can be opened. -/
def envMissingAll : Nat → CoreAttr := fun _ => CoreAttr.missing

/-- A host on which every core index, without bound, has a readable
frequency attribute of 1,000,000. -/
def envAllValue : Nat → CoreAttr := fun _ => CoreAttr.value 1000000

/-- A host on which the very first probe throws a C++ exception. -/
def envRaisesAll : Nat → CoreAttr := fun _ => CoreAttr.raises

/-- A 2+2 big.LITTLE host: cores 0-1 at 1.8 GHz-units, cores 2-3 at
2.5 GHz-units, nothing beyond. -/
def envBigLittle : Nat → CoreAttr := fun i =>
  if i < 2 then CoreAttr.value 1800000
  else if i < 4 then CoreAttr.value 2500000
  else CoreAttr.missing

/-- A procfs directory entry named `"5"`. -/
def entry5 : DirEntry := { name := ['5'], isDir := true, ok := true }

/-- A host with a single process 5 (one thread, also 5) whose comm
matches every pattern. -/
def envProc : SysEnv :=
  { envBase with
      procEntries := [entry5]
      comm := fun _ => some ['z']
      regexSearch := fun _ _ => true
      taskEntries := fun _ => [entry5] }

/-! ## Retry policy (claim C3) -/

/-- The exact event trace of a run whose every attempt fails: three
attempts, a 50 ms sleep after the first and second only. -/
def retryFailTrace : List Ev :=
  [.tryOp 0, .sleep RETRY_DELAY_MS, .tryOp 1, .sleep RETRY_DELAY_MS, .tryOp 2]

/-- The exact event trace of a run whose first success is attempt `k`:
attempts `0 .. k` with a 50 ms sleep between consecutive ones and none
after the last. -/
def retryOkTrace : Nat → List Ev
  | 0 => [.tryOp 0]
  | k + 1 => retryOkTrace k ++ [.sleep RETRY_DELAY_MS, .tryOp (k + 1)]

/-- Formalisation of the uniform retry contract: on deterministic
failure, exactly `MAX_RETRIES` attempts then `false`, with the sleeps
between attempts only; on a first success at attempt `k`, `true` is
returned at once with no further attempt and no sleep after `k`. -/
def RetrySpec (t : Bool × List Ev) (d : Nat → Bool) : Prop :=
  ((∀ a, a < MAX_RETRIES → d a = false) → t = (false, retryFailTrace)) ∧
  (∀ k, k < MAX_RETRIES → d k = true → (∀ j, j < k → d j = false) →
    t = (true, retryOkTrace k))

lemma retryAll_meets_spec (d : Nat → Bool) : RetrySpec (retryAll d) d := by
  constructor
  · intro h
    have h0 := h 0 (by norm_num [MAX_RETRIES])
    have h1 := h 1 (by norm_num [MAX_RETRIES])
    have h2 := h 2 (by norm_num [MAX_RETRIES])
    simp [retryAll, MAX_RETRIES, retryFrom, h0, h1, h2, retryFailTrace]
  · intro k hk hd hb
    simp only [MAX_RETRIES] at hk
    interval_cases k
    · simp [retryAll, MAX_RETRIES, retryFrom, hd, retryOkTrace]
    · have h0 := hb 0 (by norm_num)
      simp [retryAll, MAX_RETRIES, retryFrom, h0, hd, retryOkTrace]
    · have h0 := hb 0 (by norm_num)
      have h1 := hb 1 (by norm_num)
      simp [retryAll, MAX_RETRIES, retryFrom, h0, h1, hd, retryOkTrace]

/-- C3: each of `setAffinity`, `setNice`, `setRT`, `setIOPrio` returns
`true` as soon as one underlying attempt succeeds; on deterministic
failure it performs exactly `MAX_RETRIES` (3) attempts and returns
`false`, sleeping `RETRY_DELAY_MS` (50 ms) between consecutive attempts
but not after the final one. -/
theorem retry_policy_uniform (env : SysEnv) (tid : Int) (mask : List Nat)
    (value priority ioClass : Int) :
    RetrySpec (setAffinity env tid mask)
      (fun a => (setAffinityDirect env tid mask a).success) ∧
    RetrySpec (setNice env tid value)
      (fun a => (setNiceDirect env tid value a).success) ∧
    RetrySpec (setRT env tid priority)
      (fun a => (setRTDirect env tid priority a).success) ∧
    RetrySpec (setIOPrio env tid ioClass)
      (fun a => (setIOPrioDirect env tid ioClass a).success) :=
  ⟨retryAll_meets_spec _, retryAll_meets_spec _, retryAll_meets_spec _,
    retryAll_meets_spec _⟩

/-- Witness for C3: on `envBase` every attempt fails deterministically,
and all four wrappers produce exactly the three-attempt two-sleep
failure trace. -/
theorem retry_policy_uniform_witness :
    setAffinity envBase 1000 [] = (false, retryFailTrace) ∧
    setNice envBase 1000 (-10) = (false, retryFailTrace) ∧
    setRT envBase 1000 50 = (false, retryFailTrace) ∧
    setIOPrio envBase 1000 3 = (false, retryFailTrace) := by
  refine ⟨?_, ?_, ?_, ?_⟩
  · exact (retry_policy_uniform envBase 1000 [] (-10) 50 3).1.1 (fun a _ => rfl)
  · exact (retry_policy_uniform envBase 1000 [] (-10) 50 3).2.1.1 (fun a _ => rfl)
  · exact (retry_policy_uniform envBase 1000 [] (-10) 50 3).2.2.1.1 (fun a _ => rfl)
  · exact (retry_policy_uniform envBase 1000 [] (-10) 50 3).2.2.2.1 (fun a _ => rfl)

/-! ## Pattern validation (claim C4) -/

/-- C4: `isValidPattern` accepts exactly the inputs of length < 100 in
which no character of the forbidden set `";&|\x60$(){}[]<>"` occurs. -/
theorem isValidPattern_characterization (p : List Char) :
    isValidPattern p = true ↔ (p.length < 100 ∧ ∀ c ∈ p, c ∉ FORBIDDEN) := by
  simp [isValidPattern]

/-! ## Liberal niceness success (claim C7) -/

/-- C7: for a thread ID that passes validation, `setNiceDirect` reports
success iff the `setpriority` call returned 0 or left `errno` clear; it
reports failure exactly when the call both returned non-zero and set
`errno`. -/
theorem setNice_liberal_success (env : SysEnv) (tid value : Int) (attempt : Nat)
    (h : isValidPID env tid = true) :
    ((setNiceDirect env tid value attempt).success = true ↔
      ((env.priorityCall tid value attempt).1 = 0 ∨
        (env.priorityCall tid value attempt).2 = 0)) ∧
    ((setNiceDirect env tid value attempt).success = false ↔
      ((env.priorityCall tid value attempt).1 ≠ 0 ∧
        (env.priorityCall tid value attempt).2 ≠ 0)) := by
  by_cases hc : (env.priorityCall tid value attempt).1 = 0 ∨
      (env.priorityCall tid value attempt).2 = 0
  · simp [setNiceDirect, h, hc]
    tauto
  · simp [setNiceDirect, h, hc]
    tauto

/-- Witness for C7: on `envNiceBorderline` the call returns `-1` but
leaves `errno` clear, and the operation still reports success. -/
theorem setNice_liberal_success_witness :
    isValidPID envNiceBorderline 42 = true ∧
    (setNiceDirect envNiceBorderline 42 5 0).success = true :=
  ⟨rfl, ((setNice_liberal_success envNiceBorderline 42 5 0 rfl).1).mpr (Or.inr rfl)⟩

/-! ## StatsTracker invariant (claim C8) -/

lemma runStats_balance (ops : List StatOp) (c : Counters)
    (h : c.totalOps = c.successCount + c.failureCount) :
    (runStats c ops).totalOps =
      (runStats c ops).successCount + (runStats c ops).failureCount := by
  induction ops generalizing c with
  | nil => simpa [runStats]
  | cons o rest ih =>
    have : runStats c (o :: rest) = runStats (applyStat c o) rest := by
      simp [runStats]
    rw [this]
    apply ih
    cases o <;> simp [applyStat, recordSuccess, recordFailure] <;> omega

/-- C8: after any sequence of `recordSuccess`/`recordFailure` calls the
tracker satisfies `totalOps = successCount + failureCount`, and neither
call ever decreases any of the three counters. -/
theorem statsTracker_counters_invariant :
    (∀ ops : List StatOp,
      (runStats initCounters ops).totalOps =
        (runStats initCounters ops).successCount +
          (runStats initCounters ops).failureCount) ∧
    (∀ (c : Counters) (o : StatOp),
      c.successCount ≤ (applyStat c o).successCount ∧
      c.failureCount ≤ (applyStat c o).failureCount ∧
      c.totalOps ≤ (applyStat c o).totalOps) := by
  constructor
  · intro ops
    exact runStats_balance ops initCounters rfl
  · intro c o
    cases o <;> simp [applyStat, recordSuccess, recordFailure]

/-! ## CPU topology lemmas (claims C1, C2, C6) -/

/-- When no probe ever throws, the probe loop completes normally and
stops exactly at the first unopenable attribute within its fuel. -/
lemma detectFrom_stop (env : Nat → CoreAttr) (h : ∀ j, env j ≠ CoreAttr.raises) :
    ∀ fuel i acc, acc.totalCores = i →
      ∃ res, detectFrom env fuel i acc = some res ∧
        res.totalCores ≤ i + fuel ∧ i ≤ res.totalCores ∧
        (∀ j, i ≤ j → j < res.totalCores → env j ≠ CoreAttr.missing) ∧
        (res.totalCores < i + fuel → env res.totalCores = CoreAttr.missing) := by
  intro fuel
  induction fuel with
  | zero =>
    intro i acc hacc
    exact ⟨acc, rfl, by omega, by omega, fun j h1 h2 => by omega, fun hlt => by omega⟩
  | succ fuel ih =>
    intro i acc hacc
    cases henv : env i with
    | missing =>
      refine ⟨acc, by simp [detectFrom, henv], by omega, by omega,
        fun j h1 h2 => by omega, fun _ => ?_⟩
      rw [hacc, henv]
    | raises => exact absurd henv (h i)
    | value f =>
      by_cases hf : f > 2000000
      · obtain ⟨res, heq, hb1, hb2, hmem, hstop⟩ := ih (i + 1)
          { acc with perfCores := acc.perfCores ++ [i], totalCores := acc.totalCores + 1 }
          (by simp [hacc])
        refine ⟨res, ?_, by omega, by omega, ?_, ?_⟩
        · simp [detectFrom, henv, hf, heq]
        · intro j h1 h2
          rcases Nat.eq_or_lt_of_le h1 with rfl | hj
          · simp [henv]
          · exact hmem j hj h2
        · intro hlt
          exact hstop (by omega)
      · obtain ⟨res, heq, hb1, hb2, hmem, hstop⟩ := ih (i + 1)
          { acc with effCores := acc.effCores ++ [i], totalCores := acc.totalCores + 1 }
          (by simp [hacc])
        refine ⟨res, ?_, by omega, by omega, ?_, ?_⟩
        · simp [detectFrom, henv, hf, heq]
        · intro j h1 h2
          rcases Nat.eq_or_lt_of_le h1 with rfl | hj
          · simp [henv]
          · exact hmem j hj h2
        · intro hlt
          exact hstop (by omega)

/-- If a probe throws before the loop stops, the exception escapes the
loop: the result is `none`. -/
lemma detectFrom_raises (env : Nat → CoreAttr) :
    ∀ fuel i acc k, i ≤ k → k < i + fuel → env k = CoreAttr.raises →
      (∀ j, i ≤ j → j < k → ∃ f, env j = CoreAttr.value f) →
      detectFrom env fuel i acc = none := by
  intro fuel
  induction fuel with
  | zero => intro i acc k h1 h2 _ _; omega
  | succ fuel ih =>
    intro i acc k h1 h2 hr hv
    rcases Nat.eq_or_lt_of_le h1 with rfl | hlt
    · simp [detectFrom, hr]
    · obtain ⟨f, hf⟩ := hv i (Nat.le_refl i) hlt
      simp only [detectFrom, hf]
      exact ih (i + 1) _ k hlt (by omega) hr (fun j hj1 hj2 => hv j (by omega) hj2)

/-- The classification invariant carried by the probe loop: the
accumulator's totals, lengths and memberships describe exactly the
cores probed so far, each on the side its frequency dictates. -/
def ClassInv (env : Nat → CoreAttr) (acc : CoreInfo) (i : Nat) : Prop :=
  acc.totalCores = i ∧
  acc.perfCores.length + acc.effCores.length = i ∧
  (∀ x, (x ∈ acc.perfCores ∨ x ∈ acc.effCores) ↔ x < i) ∧
  (∀ x ∈ acc.perfCores, ∃ f, env x = CoreAttr.value f ∧ f > 2000000) ∧
  (∀ x ∈ acc.effCores, ∃ f, env x = CoreAttr.value f ∧ f ≤ 2000000)

lemma detectFrom_class (env : Nat → CoreAttr) :
    ∀ fuel i acc res, detectFrom env fuel i acc = some res →
      ClassInv env acc i → ClassInv env res res.totalCores := by
  intro fuel
  induction fuel with
  | zero =>
    intro i acc res heq hinv
    cases heq
    obtain ⟨h1, h2, h3, h4, h5⟩ := hinv
    exact ⟨rfl, by omega, by rw [h1]; exact h3, h4, h5⟩
  | succ fuel ih =>
    intro i acc res heq hinv
    obtain ⟨h1, h2, h3, h4, h5⟩ := hinv
    cases henv : env i with
    | missing =>
      simp only [detectFrom, henv] at heq
      cases heq
      exact ⟨rfl, by omega, by rw [h1]; exact h3, h4, h5⟩
    | raises => simp [detectFrom, henv] at heq
    | value f =>
      by_cases hf : f > 2000000
      · simp only [detectFrom, henv, hf, if_pos] at heq
        refine ih (i + 1) _ res heq ⟨by simp [h1], by simp; omega, ?_, ?_, h5⟩
        · intro x
          simp only [List.mem_append, List.mem_singleton]
          constructor
          · rintro ((hx | rfl) | hx)
            · have := (h3 x).mp (Or.inl hx); omega
            · omega
            · have := (h3 x).mp (Or.inr hx); omega
          · intro hx
            rcases Nat.lt_succ_iff_lt_or_eq.mp hx with hx' | rfl
            · rcases (h3 x).mpr hx' with hm | hm
              · exact Or.inl (Or.inl hm)
              · exact Or.inr hm
            · exact Or.inl (Or.inr rfl)
        · intro x hx
          rcases List.mem_append.mp hx with hx' | hx'
          · exact h4 x hx'
          · rcases List.mem_singleton.mp hx' with rfl
            exact ⟨f, henv, hf⟩
      · simp only [detectFrom, henv, hf, if_neg, if_false] at heq
        refine ih (i + 1) _ res heq ⟨by simp [h1], by simp; omega, ?_, h4, ?_⟩
        · intro x
          simp only [List.mem_append, List.mem_singleton]
          constructor
          · rintro (hx | (hx | rfl))
            · have := (h3 x).mp (Or.inl hx); omega
            · have := (h3 x).mp (Or.inr hx); omega
            · omega
          · intro hx
            rcases Nat.lt_succ_iff_lt_or_eq.mp hx with hx' | rfl
            · rcases (h3 x).mpr hx' with hm | hm
              · exact Or.inl hm
              · exact Or.inr (Or.inl hm)
            · exact Or.inr (Or.inr rfl)
        · intro x hx
          rcases List.mem_append.mp hx with hx' | hx'
          · exact h5 x hx'
          · rcases List.mem_singleton.mp hx' with rfl
            exact ⟨f, henv, by omega⟩

/-- Counterexample to C1: on a host whose core-0 frequency attribute
cannot be opened, `detectCores` does not fall back to the 4/4 default:
it returns the empty topology with `totalCores = 0` and logs no
warning. -/
theorem detectCores_missing_attr_no_fallback :
    detectCoresLog envMissingAll =
      ({ perfCores := [], effCores := [], totalCores := 0 }, false) ∧
    ({ perfCores := [], effCores := [], totalCores := 0 } : CoreInfo) ≠ defaultCoreInfo := by
  decide

/-- C1 (amended): the fixed default topology (performance 4-7,
efficiency 0-3, 8 cores) together with the warning is produced exactly
when probing throws a C++ exception; when no probe throws, no warning is
logged (an unopenable attribute merely ends probing, keeping the
partial results). -/
theorem detectCores_default_fallback (env : Nat → CoreAttr) :
    (∀ k, k < 16 → env k = CoreAttr.raises →
      (∀ j, j < k → ∃ f, env j = CoreAttr.value f) →
      detectCoresLog env = (defaultCoreInfo, true)) ∧
    ((∀ j, env j ≠ CoreAttr.raises) → (detectCoresLog env).2 = false) := by
  constructor
  · intro k hk hr hv
    have hnone := detectFrom_raises env 16 0
      { perfCores := [], effCores := [], totalCores := 0 } k (Nat.zero_le k)
      (by omega) hr (fun j _ hj2 => hv j hj2)
    simp [detectCoresLog, hnone]
  · intro h
    obtain ⟨res, heq, -⟩ := detectFrom_stop env h 16 0
      { perfCores := [], effCores := [], totalCores := 0 } rfl
    simp [detectCoresLog, heq]

/-- Witness for C1 (amended): a probe that throws at core 0 yields the
default topology and the warning. -/
theorem detectCores_default_fallback_witness :
    detectCoresLog envRaisesAll = (defaultCoreInfo, true) :=
  (detectCores_default_fallback envRaisesAll).1 0 (by decide) rfl
    (fun j hj => absurd hj (Nat.not_lt_zero j))

/-- Counterexample to C2: on a host where every core index has a
readable attribute, probing still stops after 16 cores even though the
17th attribute exists, so a bound other than the first missing
attribute cuts probing short. -/
theorem detectCores_sixteen_core_bound :
    (detectCores envAllValue).totalCores = 16 ∧
    envAllValue (detectCores envAllValue).totalCores ≠ CoreAttr.missing := by
  decide

/-- C2 (amended): when no probe throws, `detectCores` probes
sequentially from index 0 and `totalCores` counts the cores probed
before the first unopenable attribute, except that probing also stops
after at most 16 cores: below that cap the attribute at index
`totalCores` is the first unopenable one. -/
theorem detectCores_probe_stops (env : Nat → CoreAttr)
    (h : ∀ j, env j ≠ CoreAttr.raises) :
    (detectCores env).totalCores ≤ 16 ∧
    (∀ j, j < (detectCores env).totalCores → env j ≠ CoreAttr.missing) ∧
    ((detectCores env).totalCores < 16 →
      env (detectCores env).totalCores = CoreAttr.missing) := by
  obtain ⟨res, heq, hb1, _, hmem, hstop⟩ := detectFrom_stop env h 16 0
    { perfCores := [], effCores := [], totalCores := 0 } rfl
  have hdc : detectCores env = res := by simp [detectCores, detectCoresLog, heq]
  rw [hdc]
  exact ⟨by omega, fun j hj => hmem j (Nat.zero_le j) hj, fun hlt => hstop (by omega)⟩

/-- Witness for C2 (amended): on the 2+2 host, probing stops exactly at
the first unopenable attribute, index 4. -/
theorem detectCores_probe_stops_witness :
    (detectCores envBigLittle).totalCores ≤ 16 ∧
    envBigLittle (detectCores envBigLittle).totalCores = CoreAttr.missing := by
  have h := detectCores_probe_stops envBigLittle
    (fun j => by unfold envBigLittle; split <;> [skip; split] <;> simp)
  exact ⟨h.1, h.2.2 (by decide)⟩

/-- C6: in every returned topology the performance and efficiency sets
are disjoint, their union is exactly the all-cores mask, their sizes sum
to `totalCores`, and (whenever probing completed without an exception)
a probed core sits in the performance set iff its frequency exceeds the
2,000,000-unit threshold, in the efficiency set iff it is at or below
it. -/
theorem topology_partition (env : Nat → CoreAttr) :
    (∀ x, ¬(x ∈ (detectCores env).perfCores ∧ x ∈ (detectCores env).effCores)) ∧
    (∀ x, (x ∈ (detectCores env).perfCores ∨ x ∈ (detectCores env).effCores) ↔
      x ∈ getAllMask env) ∧
    (detectCores env).perfCores.length + (detectCores env).effCores.length =
      (detectCores env).totalCores ∧
    ((∀ j, env j ≠ CoreAttr.raises) →
      ∀ x f, env x = CoreAttr.value f → x < (detectCores env).totalCores →
        ((x ∈ (detectCores env).perfCores ↔ f > 2000000) ∧
          (x ∈ (detectCores env).effCores ↔ f ≤ 2000000))) := by
  rcases hsplit : detectFrom env 16 0 { perfCores := [], effCores := [], totalCores := 0 }
    with - | res
  · have hdc : detectCores env = defaultCoreInfo ∧ (detectCoresLog env).2 = true := by
      constructor <;> simp [detectCores, detectCoresLog, hsplit]
    rw [hdc.1]
    refine ⟨?_, ?_, by decide, ?_⟩
    · intro x
      simp [defaultCoreInfo]
      omega
    · intro x
      have : getAllMask env = List.range 8 := by
        simp [getAllMask, detectCores, detectCoresLog, hsplit, defaultCoreInfo]
      rw [this]
      simp [defaultCoreInfo, List.mem_range]
      omega
    · intro hnr
      obtain ⟨res, heq, -⟩ := detectFrom_stop env hnr 16 0
        { perfCores := [], effCores := [], totalCores := 0 } rfl
      rw [heq] at hsplit
      cases hsplit
  · have hinv : ClassInv env res res.totalCores :=
      detectFrom_class env 16 0 _ res hsplit
        ⟨rfl, rfl, fun x => by simp, fun x hx => absurd hx (List.not_mem_nil x),
          fun x hx => absurd hx (List.not_mem_nil x)⟩
    obtain ⟨-, hlen, hmem, hperf, heff⟩ := hinv
    have hdc : detectCores env = res := by simp [detectCores, detectCoresLog, hsplit]
    rw [hdc]
    have hall : getAllMask env = List.range res.totalCores := by
      simp [getAllMask, hdc]
    refine ⟨?_, ?_, hlen, ?_⟩
    · rintro x ⟨hxp, hxe⟩
      obtain ⟨f, hf, hfgt⟩ := hperf x hxp
      obtain ⟨g, hg, hgle⟩ := heff x hxe
      rw [hf] at hg
      cases hg
      omega
    · intro x
      rw [hall, List.mem_range]
      exact hmem x
    · intro _ x f hxf hxlt
      constructor
      · constructor
        · intro hxp
          obtain ⟨g, hg, hggt⟩ := hperf x hxp
          rw [hxf] at hg
          cases hg
          omega
        · intro hfgt
          rcases (hmem x).mpr hxlt with hm | hm
          · exact hm
          · obtain ⟨g, hg, hgle⟩ := heff x hm
            rw [hxf] at hg
            cases hg
            omega
      · constructor
        · intro hxe
          obtain ⟨g, hg, hgle⟩ := heff x hxe
          rw [hxf] at hg
          cases hg
          omega
        · intro hfle
          rcases (hmem x).mpr hxlt with hm | hm
          · obtain ⟨g, hg, hggt⟩ := hperf x hm
            rw [hxf] at hg
            cases hg
            omega
          · exact hm

/-- Witness for C6: on the 2+2 host, core 2 (2.5 GHz-units) is a
performance core and core 0 (1.8 GHz-units) is not, with no core on
both sides. -/
theorem topology_partition_witness :
    (2 ∈ (detectCores envBigLittle).perfCores ↔ (2500000 : Int) > 2000000) ∧
    (0 ∈ (detectCores envBigLittle).effCores ↔ (1800000 : Int) ≤ 2000000) ∧
    ¬(3 ∈ (detectCores envBigLittle).perfCores ∧
      3 ∈ (detectCores envBigLittle).effCores) := by
  have hnr : ∀ j, envBigLittle j ≠ CoreAttr.raises := by
    intro j
    unfold envBigLittle
    split <;> [skip; split] <;> simp
  have h := topology_partition envBigLittle
  refine ⟨(h.2.2.2 hnr 2 2500000 ?_ ?_).1, (h.2.2.2 hnr 0 1800000 ?_ ?_).2, h.1 3⟩
  · decide
  · decide
  · decide
  · decide

/-! ## Empty discovery leaves the counters untouched (claim C5) -/

/-- The `/proc` enumeration loop either logs nothing or logs the single
error message of the surrounding `catch`. -/
lemma procLoop_logs (env : SysEnv) (pattern : List Char) :
    ∀ es acc, (procLoop env pattern es acc).2 = [] ∨
      (procLoop env pattern es acc).2 = [LogEvent.getProcessIDsErr] := by
  intro es
  induction es with
  | nil => intro acc; left; rfl
  | cons e rest ih =>
    intro acc
    simp only [procLoop]
    split
    · exact ih acc
    split
    · exact ih acc
    split
    · right; rfl
    split
    · exact ih acc
    split
    · exact ih acc
    split
    · exact ih _
    · exact ih acc

/-- Every message `getProcessIDs` itself logs carries the error
severity; its informational messages are none. -/
lemma getProcessIDs_logs_err (env : SysEnv) (pattern : List Char)
    (pids : List Int) (logs : List LogEvent)
    (h : getProcessIDs env pattern = Except.ok (pids, logs)) :
    ∀ l ∈ logs, l.isErr = true := by
  unfold getProcessIDs at h
  split at h
  · cases h
    intro l hl
    rcases List.mem_singleton.mp hl with rfl
    rfl
  split at h
  · cases h
  · injection h with h'
    have hlogs : (procLoop env pattern env.procEntries []).2 = logs := by rw [h']
    rcases procLoop_logs env pattern env.procEntries [] with hl | hl <;>
      rw [hlogs] at hl <;> subst hl
    · intro l hl'; cases hl'
    · intro l hl'
      rcases List.mem_singleton.mp hl' with rfl
      rfl

/-- C5: whenever process discovery completes and yields no process
(including Sanitizer-rejected patterns), `optimizePattern` leaves the
counters exactly as they were, and exactly one informational message —
the "no processes found" one — is logged. -/
theorem optimizePattern_no_match (env : SysEnv) (stats : Counters)
    (pattern : List Char) (optimizer : Int → Bool) (opName : List Char)
    (logs : List LogEvent)
    (h : getProcessIDs env pattern = Except.ok ([], logs)) :
    optimizePattern env stats pattern optimizer opName =
      Except.ok (stats, logs ++ [LogEvent.noProcessesMsg pattern]) ∧
    (logs ++ [LogEvent.noProcessesMsg pattern]).filter (fun l => !l.isErr) =
      [LogEvent.noProcessesMsg pattern] := by
  constructor
  · simp [optimizePattern, h]
  · have herr := getProcessIDs_logs_err env pattern [] logs h
    rw [List.filter_append, List.filter_eq_nil_iff.mpr (fun l hl => by simp [herr l hl])]
    simp [LogEvent.isErr]

/-- Witness for C5: on a host with an empty `/proc`, the empty pattern
matches nothing; counters stay at their initial value and one
informational message is logged. -/
theorem optimizePattern_no_match_witness :
    optimizePattern envBase initCounters [] (fun _ => true) [] =
      Except.ok (initCounters, [LogEvent.noProcessesMsg []]) := by
  have h := optimizePattern_no_match envBase initCounters [] (fun _ => true) [] [] rfl
  simpa using h.1

/-! ## Short-circuit composition and per-thread accounting (claim C9) -/

lemma applyToTids_counts (optimizer : Int → Bool) (opName : List Char) :
    ∀ (tids : List Int) (stats : Counters),
      (applyToTids optimizer opName tids stats).1.totalOps =
        stats.totalOps + tids.length ∧
      (applyToTids optimizer opName tids stats).1.successCount =
        stats.successCount + (tids.filter optimizer).length ∧
      (applyToTids optimizer opName tids stats).1.failureCount =
        stats.failureCount + (tids.filter (fun t => !optimizer t)).length := by
  intro tids
  induction tids with
  | nil => intro stats; simp [applyToTids]
  | cons t rest ih =>
    intro stats
    by_cases h : optimizer t
    · obtain ⟨h1, h2, h3⟩ := ih (recordSuccess stats)
      have e1 : applyToTids optimizer opName (t :: rest) stats =
          applyToTids optimizer opName rest (recordSuccess stats) := by
        simp [applyToTids, h]
      rw [e1, h1, h2, h3]
      simp [recordSuccess, h]
      omega
    · obtain ⟨h1, h2, h3⟩ := ih (recordFailure stats)
      have e1 : (applyToTids optimizer opName (t :: rest) stats).1 =
          (applyToTids optimizer opName rest (recordFailure stats)).1 := by
        simp [applyToTids, h]
      rw [e1, h1, h2, h3]
      simp [recordFailure, h]
      omega

lemma applyToPids_counts (env : SysEnv) (optimizer : Int → Bool) (opName : List Char) :
    ∀ (pids : List Int) (stats : Counters),
      (applyToPids env optimizer opName pids stats).1.totalOps =
        stats.totalOps + (pids.flatMap (fun p => (getThreadIDs env p).1)).length ∧
      (applyToPids env optimizer opName pids stats).1.successCount =
        stats.successCount +
          ((pids.flatMap (fun p => (getThreadIDs env p).1)).filter optimizer).length ∧
      (applyToPids env optimizer opName pids stats).1.failureCount =
        stats.failureCount +
          ((pids.flatMap (fun p => (getThreadIDs env p).1)).filter
            (fun t => !optimizer t)).length := by
  intro pids
  induction pids with
  | nil => intro stats; simp [applyToPids]
  | cons p rest ih =>
    intro stats
    obtain ⟨h1, h2, h3⟩ :=
      applyToTids_counts optimizer opName (getThreadIDs env p).1 stats
    obtain ⟨g1, g2, g3⟩ :=
      ih (applyToTids optimizer opName (getThreadIDs env p).1 stats).1
    simp [applyToPids, g1, g2, g3, h1, h2, h3, List.filter_append]
    omega

/-- C9: each composed tuning operation evaluates its constituent
syscall applications in written order and short-circuits — a later
constituent runs only when all earlier ones returned `true`, the
composite succeeds iff every constituent did — and a pattern pass adds
exactly one counter increment per enumerated thread: a success when the
composite returned `true`, otherwise a single failure. -/
theorem composed_ops_short_circuit (env : SysEnv) (tid : Int) :
    ((highPrioOp env tid).1 =
      ((setNice env tid (-10)).1 && (setAffinity env tid (getPerfMask env.coreAttr)).1) ∧
     (highPrioOp env tid).2 =
      (if (setNice env tid (-10)).1 then [Call.nice, Call.affinity] else [Call.nice])) ∧
    ((rtOp env tid).1 =
      ((setRT env tid 50).1 && (setAffinity env tid (getPerfMask env.coreAttr)).1) ∧
     (rtOp env tid).2 =
      (if (setRT env tid 50).1 then [Call.rt, Call.affinity] else [Call.rt])) ∧
    ((lowPrioOp env tid).1 =
      ((setNice env tid 5).1 && (setAffinity env tid (getEffMask env.coreAttr)).1 &&
        (setIOPrio env tid 3).1) ∧
     (lowPrioOp env tid).2 =
      (if (setNice env tid 5).1 then
        (if (setAffinity env tid (getEffMask env.coreAttr)).1 then
          [Call.nice, Call.affinity, Call.ioprio]
         else [Call.nice, Call.affinity])
       else [Call.nice])) ∧
    (∀ (optimizer : Int → Bool) (opName : List Char) (pids : List Int) (stats : Counters),
      (applyToPids env optimizer opName pids stats).1.totalOps =
        stats.totalOps + (pids.flatMap (fun p => (getThreadIDs env p).1)).length ∧
      (applyToPids env optimizer opName pids stats).1.successCount =
        stats.successCount +
          ((pids.flatMap (fun p => (getThreadIDs env p).1)).filter optimizer).length ∧
      (applyToPids env optimizer opName pids stats).1.failureCount =
        stats.failureCount +
          ((pids.flatMap (fun p => (getThreadIDs env p).1)).filter
            (fun t => !optimizer t)).length) := by
  refine ⟨⟨?_, ?_⟩, ⟨?_, ?_⟩, ⟨?_, ?_⟩, fun optimizer opName pids stats =>
    applyToPids_counts env optimizer opName pids stats⟩
  · by_cases h : (setNice env tid (-10)).1 <;> simp [highPrioOp, sAnd, h]
  · by_cases h : (setNice env tid (-10)).1 <;> simp [highPrioOp, sAnd, h]
  · by_cases h : (setRT env tid 50).1 <;> simp [rtOp, sAnd, h]
  · by_cases h : (setRT env tid 50).1 <;> simp [rtOp, sAnd, h]
  · by_cases h1 : (setNice env tid 5).1 <;>
      by_cases h2 : (setAffinity env tid (getEffMask env.coreAttr)).1 <;>
      simp [lowPrioOp, sAnd, h1, h2]
  · by_cases h1 : (setNice env tid 5).1 <;>
      by_cases h2 : (setAffinity env tid (getEffMask env.coreAttr)).1 <;>
      simp [lowPrioOp, sAnd, h1, h2]

/-! ## Enumerated IDs were validated (claim C10) -/

lemma isValidPID_bounds (env : SysEnv) (id : Int) (h : isValidPID env id = true) :
    0 < id ∧ id < 99999 := by
  simp only [isValidPID, Bool.and_eq_true, decide_eq_true_eq] at h
  exact ⟨h.1.1, h.1.2⟩

lemma taskLoop_mem (env : SysEnv) :
    ∀ (es : List DirEntry) (acc : List Int), ∀ id ∈ (taskLoop env es acc).1,
      id ∈ acc ∨ (isValidPID env id = true ∧
        ∃ e ∈ es, e.name ≠ [] ∧ e.name.all Char.isDigit = true ∧
          (natOfDigits e.name : Int) = id) := by
  intro es
  induction es with
  | nil => intro acc id hid; exact Or.inl hid
  | cons e rest ih =>
    intro acc id hid
    have lift : ∀ acc' : List Int, id ∈ acc' ∨ id ∈ (taskLoop env rest acc').1 →
        id ∈ acc' ∨ (isValidPID env id = true ∧
          ∃ e' ∈ e :: rest, e'.name ≠ [] ∧ e'.name.all Char.isDigit = true ∧
            (natOfDigits e'.name : Int) = id) := by
      intro acc' hid'
      rcases hid' with h | hid'
      · exact Or.inl h
      rcases ih acc' id hid' with h | ⟨hv, e', he', hprops⟩
      · exact Or.inl h
      · exact Or.inr ⟨hv, e', List.mem_cons_of_mem e he', hprops⟩
    simp only [taskLoop] at hid
    by_cases hc1 : (!e.ok || !e.isDir) = true
    · rw [if_pos hc1] at hid
      exact lift acc (Or.inr hid)
    rw [if_neg hc1] at hid
    by_cases hc2 : (!e.name.all Char.isDigit) = true
    · rw [if_pos hc2] at hid
      exact lift acc (Or.inr hid)
    rw [if_neg hc2] at hid
    by_cases hc3 : (!stoiOk e.name) = true
    · rw [if_pos hc3] at hid
      exact Or.inl hid
    rw [if_neg hc3] at hid
    by_cases hc4 : isValidPID env ((natOfDigits e.name : Nat) : Int) = true
    · rw [if_pos hc4] at hid
      rcases lift _ (Or.inr hid) with h | h
      · rcases List.mem_append.mp h with h' | h'
        · exact Or.inl h'
        · rcases List.mem_singleton.mp h' with rfl
          refine Or.inr ⟨hc4, e, List.mem_cons_self e rest, ?_, ?_, rfl⟩
          · have hst : stoiOk e.name = true := by
              revert hc3
              cases stoiOk e.name <;> simp
            simp only [stoiOk, Bool.and_eq_true, decide_eq_true_eq] at hst
            exact hst.1
          · revert hc2
            cases e.name.all Char.isDigit <;> simp
      · exact Or.inr h
    · rw [if_neg hc4] at hid
      exact lift acc (Or.inr hid)

lemma procLoop_mem (env : SysEnv) (pattern : List Char) :
    ∀ (es : List DirEntry) (acc : List Int), ∀ id ∈ (procLoop env pattern es acc).1,
      id ∈ acc ∨ (isValidPID env id = true ∧
        ∃ e ∈ es, e.name ≠ [] ∧ e.name.all Char.isDigit = true ∧
          (natOfDigits e.name : Int) = id) := by
  intro es
  induction es with
  | nil => intro acc id hid; exact Or.inl hid
  | cons e rest ih =>
    intro acc id hid
    have lift : ∀ acc' : List Int, id ∈ acc' ∨ id ∈ (procLoop env pattern rest acc').1 →
        id ∈ acc' ∨ (isValidPID env id = true ∧
          ∃ e' ∈ e :: rest, e'.name ≠ [] ∧ e'.name.all Char.isDigit = true ∧
            (natOfDigits e'.name : Int) = id) := by
      intro acc' hid'
      rcases hid' with h | hid'
      · exact Or.inl h
      rcases ih acc' id hid' with h | ⟨hv, e', he', hprops⟩
      · exact Or.inl h
      · exact Or.inr ⟨hv, e', List.mem_cons_of_mem e he', hprops⟩
    simp only [procLoop] at hid
    by_cases hc1 : (!e.ok || !e.isDir) = true
    · rw [if_pos hc1] at hid
      exact lift acc (Or.inr hid)
    rw [if_neg hc1] at hid
    by_cases hc2 : (!e.name.all Char.isDigit) = true
    · rw [if_pos hc2] at hid
      exact lift acc (Or.inr hid)
    rw [if_neg hc2] at hid
    by_cases hc3 : (!stoiOk e.name) = true
    · rw [if_pos hc3] at hid
      exact Or.inl hid
    rw [if_neg hc3] at hid
    by_cases hc4 : (!isValidPID env ((natOfDigits e.name : Nat) : Int)) = true
    · rw [if_pos hc4] at hid
      exact lift acc (Or.inr hid)
    rw [if_neg hc4] at hid
    have hvalid : isValidPID env ((natOfDigits e.name : Nat) : Int) = true := by
      revert hc4
      cases isValidPID env ((natOfDigits e.name : Nat) : Int) <;> simp
    cases hcomm : env.comm ((natOfDigits e.name : Nat) : Int) with
    | none =>
      simp only [hcomm] at hid
      exact lift acc (Or.inr hid)
    | some c =>
      simp only [hcomm] at hid
      by_cases hc5 : env.regexSearch pattern c = true
      · rw [if_pos hc5] at hid
        rcases lift _ (Or.inr hid) with h | h
        · rcases List.mem_append.mp h with h' | h'
          · exact Or.inl h'
          · rcases List.mem_singleton.mp h' with rfl
            refine Or.inr ⟨hvalid, e, List.mem_cons_self e rest, ?_, ?_, rfl⟩
            · have hst : stoiOk e.name = true := by
                revert hc3
                cases stoiOk e.name <;> simp
              simp only [stoiOk, Bool.and_eq_true, decide_eq_true_eq] at hst
              exact hst.1
            · revert hc2
              cases e.name.all Char.isDigit <;> simp
        · exact Or.inr h
      · rw [if_neg hc5] at hid
        exact lift acc (Or.inr hid)

/-- C10: every ID returned by `getProcessIDs` or `getThreadIDs` comes
from a numerically-named directory entry and passed `isValidPID` at
enumeration time; in particular it lies strictly between 0 and
99999. -/
theorem ids_validated (env : SysEnv) :
    (∀ (pattern : List Char) (pids : List Int) (logs : List LogEvent),
      getProcessIDs env pattern = Except.ok (pids, logs) →
      ∀ id ∈ pids, 0 < id ∧ id < 99999 ∧ isValidPID env id = true ∧
        ∃ e ∈ env.procEntries, e.name ≠ [] ∧ e.name.all Char.isDigit = true ∧
          (natOfDigits e.name : Int) = id) ∧
    (∀ pid : Int, ∀ id ∈ (getThreadIDs env pid).1,
      0 < id ∧ id < 99999 ∧ isValidPID env id = true ∧
      ∃ e ∈ env.taskEntries pid, e.name ≠ [] ∧ e.name.all Char.isDigit = true ∧
        (natOfDigits e.name : Int) = id) := by
  constructor
  · intro pattern pids logs h id hid
    unfold getProcessIDs at h
    split at h
    · cases h
      cases hid
    split at h
    · cases h
    · injection h with h'
      have hpids : (procLoop env pattern env.procEntries []).1 = pids := by rw [h']
      rw [← hpids] at hid
      rcases procLoop_mem env pattern env.procEntries [] id hid with h'' | ⟨hv, hex⟩
      · cases h''
      · obtain ⟨b1, b2⟩ := isValidPID_bounds env id hv
        exact ⟨b1, b2, hv, hex⟩
  · intro pid id hid
    unfold getThreadIDs at hid
    split at hid
    · cases hid
    · rcases taskLoop_mem env (env.taskEntries pid) [] id hid with h'' | ⟨hv, hex⟩
      · cases h''
      · obtain ⟨b1, b2⟩ := isValidPID_bounds env id hv
        exact ⟨b1, b2, hv, hex⟩

/-- Witness for C10: on the one-process host, the pattern `"z"` yields
exactly process 5, which is numerically named and validated. -/
theorem ids_validated_witness :
    0 < (5 : Int) ∧ (5 : Int) < 99999 ∧ isValidPID envProc 5 = true ∧
    ∃ e ∈ envProc.procEntries, e.name ≠ [] ∧ e.name.all Char.isDigit = true ∧
      (natOfDigits e.name : Int) = 5 :=
  (ids_validated envProc).1 ['z'] [5] [] rfl 5 (List.mem_singleton.mpr rfl)

end CoreTaskOptimizer
